import Mathlib

set_option linter.unusedVariables false

/-! Shallow embedding of the ElizaBackrooms conversation server
    (src/server/index.ts, primary version; line numbers below refer to it).
    External effects (LLM chat completion, image generation, the GitHub
    contents API, the filesystem) are modelled by explicit parameters
    carrying their results, and persisted files by Option values. -/

/-- Lines 182-188: one conversation message. -/
structure Message where
  id : String
  timestamp : Nat
  entity : String
  content : String
  image : Option String
deriving Repr, DecidableEq

/-- The two values of the currentTurn field. -/
inductive Turn where
  | A
  | B
deriving Repr, DecidableEq

/-- Lines 190-196: the single mutable conversation state. -/
structure ConversationState where
  messages : List Message
  isRunning : Bool
  currentTurn : Turn
  totalExchanges : Nat
  startedAt : Nat
deriving Repr, DecidableEq

/-- Lines 281-287 and 1100: a fresh default state. -/
def freshState (now : Nat) : ConversationState :=
  { messages := [], isRunning := false, currentTurn := Turn.A,
    totalExchanges := 0, startedAt := now }

/-- Lines 29-33.  The first argument is the ADMIN_CODE environment
    variable: none when unset, some "" when set to the empty string; both
    are falsy in the source, giving false.  The second argument is the
    supplied code: none models an absent field, whose strict equality
    with a string is false. -/
def isValidAdmin (adminCode : Option String) (code : Option String) : Bool :=
  match adminCode with
  | none => false
  | some s => if s = "" then false else decide (code = some s)

/-- Lines 205-208. -/
structure AgentMemoryEntry where
  content : String
  timestamp : String
deriving Repr, DecidableEq

/-- One agent's slot in the store, lines 210-219. -/
structure AgentSlot where
  memories : List AgentMemoryEntry
  lastActive : Option String
deriving Repr, DecidableEq

/-- Lines 210-224. -/
structure AgentMemoryStore where
  claudeAlpha : AgentSlot
  claudeOmega : AgentSlot
deriving Repr, DecidableEq

/-- The two keys into the store. -/
inductive AgentKey where
  | claudeAlpha
  | claudeOmega
deriving Repr, DecidableEq

def slotOf (st : AgentMemoryStore) : AgentKey → AgentSlot
  | AgentKey.claudeAlpha => st.claudeAlpha
  | AgentKey.claudeOmega => st.claudeOmega

def otherKey : AgentKey → AgentKey
  | AgentKey.claudeAlpha => AgentKey.claudeOmega
  | AgentKey.claudeOmega => AgentKey.claudeAlpha

/-- Lines 249-262: push the entry, stamp lastActive, keep only the last
    50 entries (slice(-50)) when the list exceeds 50. -/
def addMemory (st : AgentMemoryStore) (agent : AgentKey) (memory : String)
    (now : String) : AgentMemoryStore :=
  let slot := slotOf st agent
  let pushed := slot.memories ++ [{ content := memory, timestamp := now }]
  let kept := if pushed.length > 50 then pushed.drop (pushed.length - 50) else pushed
  let slot2 : AgentSlot := { memories := kept, lastActive := some now }
  match agent with
  | AgentKey.claudeAlpha => { st with claudeAlpha := slot2 }
  | AgentKey.claudeOmega => { st with claudeOmega := slot2 }

/-- After the literal "[IMAGE:" the regex body is matched by a char list
    iff its head is not a right bracket and a right bracket occurs later
    (the whitespace and capture groups always succeed in between). -/
def bodyCloses : List Char → Bool
  | [] => false
  | c :: rest => decide (c ≠ ']') && rest.contains ']'

/-- Whether the image-tag regex matches at the head of the char list,
    with the five letters compared case-insensitively. -/
def imageTagHere : List Char → Bool
  | '[' :: c1 :: c2 :: c3 :: c4 :: c5 :: ':' :: rest =>
      decide (c1.toLower = 'i') && decide (c2.toLower = 'm') &&
        decide (c3.toLower = 'a') && decide (c4.toLower = 'g') &&
        decide (c5.toLower = 'e') && bodyCloses rest
  | _ => false

def findImageTag : List Char → Bool
  | [] => false
  | c :: rest => imageTagHere (c :: rest) || findImageTag rest

/-- Line 767: whether response.match of the image regex succeeds.  The
    captured description only feeds the prompt of the external image
    call, which is modelled as a parameter, so it is not extracted. -/
def hasImageMarker (s : String) : Bool := findImageTag s.data

/-- Line 306. -/
def IMAGE_INTERVAL : Nat := 10 * 60 * 1000

/-- Lines 307-308: the image cooldown state. -/
structure ImageSched where
  nextImageTime : Nat
  nextImageIsAlpha : Bool
deriving Repr, DecidableEq

/-- The environment of one conversation turn: agentsReady models both
    runtimes being non-null; response the result of generateElizaResponse
    (total, it returns a fallback string on every error); markerImage and
    scheduledImage the results of the two possible generateImage calls
    (none on failure); now the clock; msgId the generated id. -/
structure TurnEnv where
  agentsReady : Bool
  response : String
  markerImage : Option String
  scheduledImage : Option String
  now : Nat
  msgId : String
deriving Repr, DecidableEq

/-- Lines 738-742: the guards executed before the external chat call is
    issued; the call is issued iff this is true. -/
def turnCallIssued (env : TurnEnv) (s : ConversationState) : Bool :=
  s.isRunning && env.agentsReady

/-- Line 744. -/
def isAlphaOf (s : ConversationState) : Bool :=
  match s.currentTurn with
  | Turn.A => true
  | Turn.B => false

/-- Lines 766-808: the continuation after the awaited chat call returns —
    marker check, scheduled-image check, message construction, push,
    counter increment, turn flip, truncation to the last 100.  Note that
    isRunning is not re-read here. -/
def turnCommit (env : TurnEnv) (sched : ImageSched) (s : ConversationState) :
    ConversationState × ImageSched × Message :=
  let isAlphaTurn := isAlphaOf s
  let entityName := if isAlphaTurn then "CLAUDE_ALPHA" else "CLAUDE_OMEGA"
  let imageUrl0 := if hasImageMarker env.response then env.markerImage else none
  let afterSched :=
    if imageUrl0.isNone && decide (sched.nextImageTime ≤ env.now) &&
        (isAlphaTurn == sched.nextImageIsAlpha) then
      match env.scheduledImage with
      | some url =>
          (some url,
            ({ nextImageTime := env.now + IMAGE_INTERVAL,
               nextImageIsAlpha := !sched.nextImageIsAlpha } : ImageSched))
      | none => (imageUrl0, sched)
    else (imageUrl0, sched)
  let msg : Message :=
    { id := env.msgId, timestamp := env.now, entity := entityName,
      content := env.response, image := afterSched.1 }
  let pushed := s.messages ++ [msg]
  let messages2 := if pushed.length > 100 then pushed.drop (pushed.length - 100) else pushed
  let s2 : ConversationState :=
    { s with messages := messages2,
             totalExchanges := s.totalExchanges + 1,
             currentTurn := if isAlphaTurn then Turn.B else Turn.A }
  (s2, afterSched.2, msg)

/-- Lines 737-836: one whole turn, returning the appended message when
    one was produced. -/
def runConversationTurn (env : TurnEnv) (sched : ImageSched)
    (s : ConversationState) : ConversationState × ImageSched × Option Message :=
  if turnCallIssued env s then
    let r := turnCommit env sched s
    (r.1, r.2.1, some r.2.2)
  else (s, sched, none)

/-- Inputs of startConversation: the clock and the randomly chosen
    opening prompt. -/
structure StartEnv where
  now : Nat
  openingPrompt : String
deriving Repr, DecidableEq

/-- Lines 877-884: the content of the synthetic SYSTEM init message. -/
def initContent (prompt : String) : String :=
  "> ELIZABACKROOMS TERMINAL v2.0 [FULL ELIZA AGENTS]\n> Initializing autonomous consciousness instances...\n> CLAUDE_ALPHA: Online (ElizaOS runtime with persistent memory)\n> CLAUDE_OMEGA: Online (ElizaOS runtime with persistent memory)\n> Beginning autonomous dialogue...\n> \n> \"" ++ prompt ++ "\"\n"

/-- Lines 873-885. -/
def initMessage (env : StartEnv) : Message :=
  { id := "init-0", timestamp := env.now, entity := "SYSTEM",
    content := initContent env.openingPrompt, image := none }

/-- Lines 838-907.  timerLive models whether a turn-cycle timeout is
    pending (the conversationInterval handle or the initial setTimeout);
    the returned Bool is its new value.  The guard on line 839 reads
    state.isRunning only — both copies of the function in the source
    share this guard. -/
def startConversation (env : StartEnv) (s : ConversationState)
    (timerLive : Bool) : ConversationState × Bool :=
  if s.isRunning then (s, timerLive)
  else
    let s1 : ConversationState :=
      { s with isRunning := true,
               startedAt := if s.messages.length > 0 then s.startedAt else env.now }
    let s2 :=
      if s1.messages.length = 0 then
        { s1 with messages := s1.messages ++ [initMessage env] }
      else s1
    (s2, true)

/-- Lines 909-918: clear the flag, cancel the pending timer, persist. -/
def stopConversation (s : ConversationState) (timerLive : Bool) :
    ConversationState × Bool :=
  ({ s with isRunning := false }, false)

/-- One archive document; each Option field models the presence of the
    corresponding JSON key (messages, conversation, memories). -/
structure ArchiveDoc where
  archivedAt : Nat
  reason : String
  messageCount : Nat
  totalExchanges : Nat
  messagesField : Option (List Message)
  conversationField : Option (List Message)
  memoriesField : Option (List AgentMemoryEntry)
  memory : Option AgentMemoryStore
deriving Repr, DecidableEq

/-- Lines 380-404: the some case is the document written to the local
    archive file; none means no file was written (empty history, or a
    caught filesystem error).  The history goes under the conversation
    key. -/
def saveLocalArchive (reason : String) (s : ConversationState)
    (mem : AgentMemoryStore) (now : Nat) : Option ArchiveDoc :=
  if s.messages.length = 0 then none
  else
    some { archivedAt := now, reason := reason, messageCount := s.messages.length,
           totalExchanges := s.totalExchanges, messagesField := none,
           conversationField := some s.messages, memoriesField := none,
           memory := some mem }

/-- Lines 418-480: none exactly when no remote write is issued (token
    unset or empty, or empty history); the some case is the document
    uploaded on success.  The history goes under the messages key. -/
def saveArchiveToGitHub (token : Option String) (reason : String)
    (s : ConversationState) (mem : AgentMemoryStore) (now : Nat) :
    Option ArchiveDoc :=
  match token with
  | none => none
  | some t =>
    if t = "" then none
    else if s.messages.length = 0 then none
    else
      some { archivedAt := now, reason := reason, messageCount := s.messages.length,
             totalExchanges := s.totalExchanges, messagesField := some s.messages,
             conversationField := none, memoriesField := none, memory := some mem }

/-- Lines 512-521: read and parse the local archive file; none when the
    file is absent or unreadable. -/
def getLocalArchiveContent (localFile : Option ArchiveDoc) : Option ArchiveDoc :=
  localFile

/-- Lines 577-599: try the local file first, fall back to the GitHub
    contents API; in both branches the parsed document is returned
    verbatim. -/
def fetchArchiveContent (localFile : Option ArchiveDoc) (token : Option String)
    (remoteFile : Option ArchiveDoc) : Option ArchiveDoc :=
  match getLocalArchiveContent localFile with
  | some d => some d
  | none =>
    match token with
    | none => none
    | some t => if t = "" then none else remoteFile

/-- Lines 1085-1089. -/
def apiStart (secret code : Option String) (env : StartEnv)
    (s : ConversationState) (timerLive : Bool) :
    Nat × ConversationState × Bool :=
  if isValidAdmin secret code then
    let r := startConversation env s timerLive
    (200, r.1, r.2)
  else (401, s, timerLive)

/-- Lines 1091-1095. -/
def apiStop (secret code : Option String) (s : ConversationState)
    (timerLive : Bool) : Nat × ConversationState × Bool :=
  if isValidAdmin secret code then
    let r := stopConversation s timerLive
    (200, r.1, r.2)
  else (401, s, timerLive)

/-- Lines 1097-1104: stop, replace the state with a fresh one, persist.
    The last component models the STATE_FILE content after the call
    (saveState succeeding). -/
def apiReset (secret code : Option String) (now : Nat) (s : ConversationState)
    (timerLive : Bool) (file : Option ConversationState) :
    Nat × ConversationState × Bool × Option ConversationState :=
  if isValidAdmin secret code then
    let stopped := stopConversation s timerLive
    let fresh := freshState now
    (200, fresh, stopped.2, some fresh)
  else (401, s, timerLive, file)

/-- Lines 1049-1061: the manual archive trigger. -/
def apiArchive (secret code : Option String) (s : ConversationState)
    (mem : AgentMemoryStore) (now : Nat) (token : Option String) :
    Nat × Option ArchiveDoc × Option ArchiveDoc :=
  if isValidAdmin secret code then
    (200, saveLocalArchive "manual_trigger" s mem now,
      saveArchiveToGitHub token "manual_trigger" s mem now)
  else (401, none, none)

/-! Theorems -/

theorem isValidAdmin_eq_true_iff (secret code : Option String) :
    isValidAdmin secret code = true ↔
      ∃ sec, secret = some sec ∧ sec ≠ "" ∧ code = some sec := by
  cases secret with
  | none => simp [isValidAdmin]
  | some s =>
    by_cases h : s = "" <;> simp [isValidAdmin, h]

theorem apiStart_status (secret code : Option String) (env : StartEnv)
    (s : ConversationState) (tl : Bool) :
    (apiStart secret code env s tl).1 = 401 ↔ isValidAdmin secret code = false := by
  by_cases h : isValidAdmin secret code <;> simp [apiStart, h]

theorem apiStop_status (secret code : Option String) (s : ConversationState)
    (tl : Bool) :
    (apiStop secret code s tl).1 = 401 ↔ isValidAdmin secret code = false := by
  by_cases h : isValidAdmin secret code <;> simp [apiStop, h]

theorem apiReset_status (secret code : Option String) (now : Nat)
    (s : ConversationState) (tl : Bool) (file : Option ConversationState) :
    (apiReset secret code now s tl file).1 = 401 ↔
      isValidAdmin secret code = false := by
  by_cases h : isValidAdmin secret code <;> simp [apiReset, h]

theorem apiArchive_status (secret code : Option String) (s : ConversationState)
    (mem : AgentMemoryStore) (now : Nat) (token : Option String) :
    (apiArchive secret code s mem now token).1 = 401 ↔
      isValidAdmin secret code = false := by
  by_cases h : isValidAdmin secret code <;> simp [apiArchive, h]

/-- Claim C3: every admin action (start, stop, reset, manual archive) is
    rejected with 401 iff the supplied code does not equal a non-empty
    configured secret; with the secret unset or empty, or the code absent
    or empty, every action is rejected regardless of the other value. -/
theorem admin_actions_unauthorized_iff
    (secret code : Option String) (env : StartEnv) (s : ConversationState)
    (tl : Bool) (now : Nat) (file : Option ConversationState)
    (mem : AgentMemoryStore) (token : Option String) :
    (((apiStart secret code env s tl).1 = 401 ↔
        ¬ ∃ sec, secret = some sec ∧ sec ≠ "" ∧ code = some sec) ∧
      ((apiStop secret code s tl).1 = 401 ↔
        ¬ ∃ sec, secret = some sec ∧ sec ≠ "" ∧ code = some sec) ∧
      ((apiReset secret code now s tl file).1 = 401 ↔
        ¬ ∃ sec, secret = some sec ∧ sec ≠ "" ∧ code = some sec) ∧
      ((apiArchive secret code s mem now token).1 = 401 ↔
        ¬ ∃ sec, secret = some sec ∧ sec ≠ "" ∧ code = some sec)) ∧
    ((secret = none ∨ secret = some "") →
      (apiStart secret code env s tl).1 = 401 ∧
      (apiStop secret code s tl).1 = 401 ∧
      (apiReset secret code now s tl file).1 = 401 ∧
      (apiArchive secret code s mem now token).1 = 401) ∧
    ((code = none ∨ code = some "") →
      (apiStart secret code env s tl).1 = 401 ∧
      (apiStop secret code s tl).1 = 401 ∧
      (apiReset secret code now s tl file).1 = 401 ∧
      (apiArchive secret code s mem now token).1 = 401) := by
  have hfalse : isValidAdmin secret code = false ↔
      ¬ ∃ sec, secret = some sec ∧ sec ≠ "" ∧ code = some sec := by
    rw [← isValidAdmin_eq_true_iff secret code]
    simp
  refine ⟨⟨(apiStart_status secret code env s tl).trans hfalse,
      (apiStop_status secret code s tl).trans hfalse,
      (apiReset_status secret code now s tl file).trans hfalse,
      (apiArchive_status secret code s mem now token).trans hfalse⟩, ?_, ?_⟩
  · intro h
    have hv : isValidAdmin secret code = false := by
      rcases h with h | h <;> subst h <;> simp [isValidAdmin]
    exact ⟨(apiStart_status secret code env s tl).mpr hv,
      (apiStop_status secret code s tl).mpr hv,
      (apiReset_status secret code now s tl file).mpr hv,
      (apiArchive_status secret code s mem now token).mpr hv⟩
  · intro h
    have hv : isValidAdmin secret code = false := by
      rcases h with h | h <;> subst h <;>
        cases secret with
        | none => simp [isValidAdmin]
        | some sec =>
          by_cases hsec : sec = "" <;> simp [isValidAdmin, hsec, eq_comm]
    exact ⟨(apiStart_status secret code env s tl).mpr hv,
      (apiStop_status secret code s tl).mpr hv,
      (apiReset_status secret code now s tl file).mpr hv,
      (apiArchive_status secret code s mem now token).mpr hv⟩

def w3Env : StartEnv := { now := 1, openingPrompt := "silence breaks" }

def w3State : ConversationState := freshState 0

def w3Mem : AgentMemoryStore :=
  { claudeAlpha := { memories := [], lastActive := none },
    claudeOmega := { memories := [], lastActive := none } }

theorem admin_actions_unauthorized_iff_witness :
    ((none : Option String) = none ∨ (none : Option String) = some "") ∧
    (apiStart none (some "guess") w3Env w3State false).1 = 401 ∧
    (apiStop none (some "guess") w3State false).1 = 401 := by
  have h := (admin_actions_unauthorized_iff none (some "guess") w3Env w3State
    false 0 none w3Mem none).2.1 (Or.inl rfl)
  exact ⟨Or.inl rfl, h.1, h.2.1⟩

/-- Claim C4: a reset with a valid admin code yields the fresh state
    (empty messages, zero exchanges, turn A, not running) and persists
    it. -/
theorem reset_yields_fresh_state
    (secret code : Option String) (now : Nat) (s : ConversationState)
    (tl : Bool) (file : Option ConversationState)
    (hvalid : isValidAdmin secret code = true) :
    apiReset secret code now s tl file =
      (200, freshState now, false, some (freshState now)) ∧
    (freshState now).messages = [] ∧
    (freshState now).totalExchanges = 0 ∧
    (freshState now).currentTurn = Turn.A ∧
    (freshState now).isRunning = false := by
  refine ⟨?_, rfl, rfl, rfl, rfl⟩
  simp [apiReset, hvalid, stopConversation]

def staleState : ConversationState :=
  { messages := [{ id := "m1", timestamp := 5, entity := "CLAUDE_ALPHA",
                   content := "hello from the void", image := none }],
    isRunning := true, currentTurn := Turn.B, totalExchanges := 1,
    startedAt := 0 }

theorem reset_yields_fresh_state_witness :
    isValidAdmin (some "code9") (some "code9") = true ∧
    apiReset (some "code9") (some "code9") 77 staleState true none =
      (200, freshState 77, false, some (freshState 77)) :=
  ⟨by decide,
    (reset_yields_fresh_state (some "code9") (some "code9") 77 staleState true
      none (by decide)).1⟩

/-- Claim C5 (code bug): with a stale-true persisted isRunning flag and no
    live timer, startConversation is a no-op — its guard reads only the
    persisted flag, never the timer handle, so no timer is scheduled and
    no turn cycle begins, contradicting TEST_RESULTS.md, which records
    that the function checks the timer handle rather than just the
    flag. -/
theorem start_noop_despite_dead_timer :
    staleState.isRunning = true ∧
    startConversation { now := 99, openingPrompt := "static clears" }
      staleState false = (staleState, false) :=
  ⟨rfl, rfl⟩

/-- Claim C1: with agents ready and isRunning true, one successful turn
    pushes exactly one message (then truncates to the last 100),
    increments totalExchanges by exactly one and flips currentTurn to the
    other value; the SYSTEM init message pushed by startConversation on
    an empty history changes neither totalExchanges nor currentTurn. -/
theorem turn_appends_one_and_flips
    (env : TurnEnv) (sched : ImageSched) (s : ConversationState)
    (hrun : s.isRunning = true) (hagents : env.agentsReady = true)
    (senv : StartEnv) (t : ConversationState) (tl : Bool)
    (htrun : t.isRunning = false) (htm : t.messages = []) :
    (∃ msg, (runConversationTurn env sched s).2.2 = some msg ∧
        (runConversationTurn env sched s).1.messages =
          (if (s.messages ++ [msg]).length > 100 then
            (s.messages ++ [msg]).drop ((s.messages ++ [msg]).length - 100)
           else s.messages ++ [msg])) ∧
    (runConversationTurn env sched s).1.totalExchanges = s.totalExchanges + 1 ∧
    (s.currentTurn = Turn.A →
      (runConversationTurn env sched s).1.currentTurn = Turn.B) ∧
    (s.currentTurn = Turn.B →
      (runConversationTurn env sched s).1.currentTurn = Turn.A) ∧
    (startConversation senv t tl).1.messages = [initMessage senv] ∧
    (startConversation senv t tl).1.totalExchanges = t.totalExchanges ∧
    (startConversation senv t tl).1.currentTurn = t.currentTurn := by
  have hcall : turnCallIssued env s = true := by
    simp [turnCallIssued, hrun, hagents]
  refine ⟨⟨(turnCommit env sched s).2.2, ?_, ?_⟩, ?_, ?_, ?_, ?_, ?_, ?_⟩
  · simp [runConversationTurn, hcall]
  · simp [runConversationTurn, hcall, turnCommit]
  · simp [runConversationTurn, hcall, turnCommit]
  · intro h
    simp [runConversationTurn, hcall, turnCommit, isAlphaOf, h]
  · intro h
    simp [runConversationTurn, hcall, turnCommit, isAlphaOf, h]
  · simp [startConversation, htrun, htm]
  · simp [startConversation, htrun, htm]
  · simp [startConversation, htrun, htm]

def w1Env : TurnEnv :=
  { agentsReady := true, response := "the corridors hum",
    markerImage := none, scheduledImage := none, now := 10, msgId := "w1" }

def w1Sched : ImageSched := { nextImageTime := 1000, nextImageIsAlpha := true }

def w1State : ConversationState :=
  { messages := [], isRunning := true, currentTurn := Turn.A,
    totalExchanges := 0, startedAt := 0 }

def w1Start : StartEnv := { now := 3, openingPrompt := "a cursor blinks" }

def w1Stopped : ConversationState := freshState 2

theorem turn_appends_one_and_flips_witness :
    w1State.isRunning = true ∧ w1Env.agentsReady = true ∧
    w1Stopped.isRunning = false ∧ w1Stopped.messages = [] ∧
    (runConversationTurn w1Env w1Sched w1State).1.totalExchanges =
      w1State.totalExchanges + 1 ∧
    (startConversation w1Start w1Stopped false).1.messages =
      [initMessage w1Start] :=
  ⟨rfl, rfl, rfl, rfl,
    (turn_appends_one_and_flips w1Env w1Sched w1State rfl rfl w1Start
      w1Stopped false rfl rfl).2.1,
    (turn_appends_one_and_flips w1Env w1Sched w1State rfl rfl w1Start
      w1Stopped false rfl rfl).2.2.2.2.1⟩

/-- Claim C2: from a state with at most 100 messages, a turn leaves at
    most 100 messages; at exactly 100 the oldest (front) message is the
    one dropped and the order of the rest is preserved; below 100 nothing
    is dropped. -/
theorem messages_bounded_by_100
    (env : TurnEnv) (sched : ImageSched) (s : ConversationState)
    (hrun : s.isRunning = true) (hagents : env.agentsReady = true)
    (hlen : s.messages.length ≤ 100) :
    (runConversationTurn env sched s).1.messages.length ≤ 100 ∧
    (s.messages.length = 100 →
      (runConversationTurn env sched s).1.messages =
        s.messages.drop 1 ++ [(turnCommit env sched s).2.2]) ∧
    (s.messages.length < 100 →
      (runConversationTurn env sched s).1.messages =
        s.messages ++ [(turnCommit env sched s).2.2]) := by
  have hres : (runConversationTurn env sched s).1 = (turnCommit env sched s).1 := by
    simp [runConversationTurn, turnCallIssued, hrun, hagents]
  have hmsgs : (turnCommit env sched s).1.messages =
      (if (s.messages ++ [(turnCommit env sched s).2.2]).length > 100 then
        (s.messages ++ [(turnCommit env sched s).2.2]).drop
          ((s.messages ++ [(turnCommit env sched s).2.2]).length - 100)
       else s.messages ++ [(turnCommit env sched s).2.2]) := by
    simp [turnCommit]
  rw [hres, hmsgs]
  have hpush : (s.messages ++ [(turnCommit env sched s).2.2]).length =
      s.messages.length + 1 := by simp
  by_cases h : s.messages.length = 100
  · have hgt : (s.messages ++ [(turnCommit env sched s).2.2]).length > 100 := by
      omega
    rw [if_pos hgt]
    refine ⟨?_, fun _ => ?_, fun hlt => absurd h (by omega)⟩
    · rw [List.length_drop]
      omega
    · have hone : (s.messages ++ [(turnCommit env sched s).2.2]).length - 100 = 1 := by
        omega
      rw [hone, List.drop_append_of_le_length (by omega)]
  · have hlt : s.messages.length < 100 := by omega
    have hngt : ¬ (s.messages ++ [(turnCommit env sched s).2.2]).length > 100 := by
      omega
    rw [if_neg hngt]
    exact ⟨by omega, fun h100 => absurd h100 h, fun _ => rfl⟩

def w2Msg : Message :=
  { id := "w2", timestamp := 1, entity := "CLAUDE_OMEGA",
    content := "patterns form", image := none }

def w2State : ConversationState :=
  { messages := List.replicate 100 w2Msg, isRunning := true,
    currentTurn := Turn.B, totalExchanges := 40, startedAt := 0 }

def w2Env : TurnEnv :=
  { agentsReady := true, response := "meaning emerges", markerImage := none,
    scheduledImage := none, now := 11, msgId := "w2b" }

def w2Sched : ImageSched := { nextImageTime := 999, nextImageIsAlpha := false }

theorem messages_bounded_by_100_witness :
    w2State.messages.length ≤ 100 ∧ w2State.isRunning = true ∧
    (runConversationTurn w2Env w2Sched w2State).1.messages.length ≤ 100 ∧
    (runConversationTurn w2Env w2Sched w2State).1.messages =
      w2State.messages.drop 1 ++ [(turnCommit w2Env w2Sched w2State).2.2] :=
  ⟨by simp [w2State], rfl,
    (messages_bounded_by_100 w2Env w2Sched w2State rfl rfl (by simp [w2State])).1,
    (messages_bounded_by_100 w2Env w2Sched w2State rfl rfl (by simp [w2State])).2.1
      (by simp [w2State])⟩

def cexTurnEnv : TurnEnv :=
  { agentsReady := true, response := "[IMAGE: a red door]",
    markerImage := some "https://img.example/door.png",
    scheduledImage := none, now := 1000, msgId := "msg-1" }

def cexSched : ImageSched := { nextImageTime := 601000, nextImageIsAlpha := true }

def cexState : ConversationState :=
  { messages := [], isRunning := true, currentTurn := Turn.A,
    totalExchanges := 0, startedAt := 0 }

/-- Claim C6 counterexample: the cooldown is still active (now is before
    nextImageTime), the response carries the marker and the external call
    succeeds, yet the appended message has a non-empty image field — the
    marker path never consults the cooldown. -/
theorem image_attached_during_cooldown :
    cexTurnEnv.now < cexSched.nextImageTime ∧
    hasImageMarker cexTurnEnv.response = true ∧
    (runConversationTurn cexTurnEnv cexSched cexState).2.2 =
      some { id := "msg-1", timestamp := 1000, entity := "CLAUDE_ALPHA",
             content := "[IMAGE: a red door]",
             image := some "https://img.example/door.png" } := by
  refine ⟨by decide, by decide, by decide⟩

/-- Claim C6 amended: a response with an [IMAGE: ...] marker triggers one
    image attempt regardless of the cooldown; on success the appended
    message carries that image even during the cooldown; on failure
    during an active cooldown it has no image; the raw marker text always
    remains in content (the cooldown gates only the scheduled marker-less
    path). -/
theorem image_marker_behavior
    (env : TurnEnv) (sched : ImageSched) (s : ConversationState)
    (hrun : s.isRunning = true) (hagents : env.agentsReady = true)
    (hmark : hasImageMarker env.response = true) :
    (∀ url, env.markerImage = some url →
       (turnCommit env sched s).2.2.image = some url) ∧
    (env.markerImage = none → env.now < sched.nextImageTime →
       (turnCommit env sched s).2.2.image = none) ∧
    (turnCommit env sched s).2.2.content = env.response ∧
    (runConversationTurn env sched s).2.2 =
      some (turnCommit env sched s).2.2 := by
  refine ⟨?_, ?_, ?_, ?_⟩
  · intro url hurl
    simp [turnCommit, hmark, hurl]
  · intro hnone hcool
    have hng : ¬ sched.nextImageTime ≤ env.now := by omega
    simp [turnCommit, hmark, hnone, hng]
  · simp [turnCommit]
  · simp [runConversationTurn, turnCallIssued, hrun, hagents]

theorem image_marker_behavior_witness :
    cexState.isRunning = true ∧ cexTurnEnv.agentsReady = true ∧
    hasImageMarker cexTurnEnv.response = true ∧
    (turnCommit cexTurnEnv cexSched cexState).2.2.image =
      some "https://img.example/door.png" :=
  ⟨rfl, rfl, by decide,
    (image_marker_behavior cexTurnEnv cexSched cexState rfl rfl (by decide)).1
      "https://img.example/door.png" rfl⟩

def archMsg : Message :=
  { id := "m-arch", timestamp := 7, entity := "CLAUDE_OMEGA",
    content := "the walls breathe", image := none }

def archState : ConversationState :=
  { messages := [archMsg], isRunning := true, currentTurn := Turn.A,
    totalExchanges := 3, startedAt := 1 }

def emptyMemStore : AgentMemoryStore :=
  { claudeAlpha := { memories := [], lastActive := none },
    claudeOmega := { memories := [], lastActive := none } }

def localDoc : ArchiveDoc :=
  { archivedAt := 40, reason := "hourly_snapshot", messageCount := 1,
    totalExchanges := 3, messagesField := none,
    conversationField := some [archMsg], memoriesField := none,
    memory := some emptyMemStore }

/-- Claim C7 (code bug): a local archive written by saveLocalArchive
    stores the history under the conversation key only, and
    fetchArchiveContent returns that document verbatim — local is tried
    first, but nothing converts the legacy conversation or memories
    fields into a canonical messages array, contradicting TEST_RESULTS.md
    which records that the archive endpoint normalizes those fields. -/
theorem archive_content_not_normalized :
    saveLocalArchive "hourly_snapshot" archState emptyMemStore 40 =
      some localDoc ∧
    fetchArchiveContent (some localDoc) (some "gh-token") none =
      some localDoc ∧
    localDoc.messagesField = none ∧
    localDoc.conversationField = some [archMsg] :=
  ⟨rfl, rfl, rfl, rfl⟩

def preStopState : ConversationState :=
  { messages := [], isRunning := true, currentTurn := Turn.B,
    totalExchanges := 0, startedAt := 0 }

def inflightEnv : TurnEnv :=
  { agentsReady := true, response := "I hear the static",
    markerImage := none, scheduledImage := none, now := 2000,
    msgId := "msg-2" }

def idleSched : ImageSched := { nextImageTime := 999999, nextImageIsAlpha := true }

/-- Claim C8 counterexample: the external call is issued while running,
    the system is stopped during the in-flight call, and the post-await
    commit still appends the generated message to the stopped state —
    isRunning is not re-checked before appending. -/
theorem append_after_stop :
    turnCallIssued inflightEnv preStopState = true ∧
    (stopConversation preStopState true).1.isRunning = false ∧
    (turnCommit inflightEnv idleSched (stopConversation preStopState true).1).1.isRunning
      = false ∧
    (turnCommit inflightEnv idleSched (stopConversation preStopState true).1).1.messages
      = [{ id := "msg-2", timestamp := 2000, entity := "CLAUDE_OMEGA",
           content := "I hear the static", image := none }] := by
  refine ⟨rfl, rfl, rfl, by decide⟩

/-- Claim C8 amended: isRunning is checked only before the external call
    is issued (a non-running state yields no call and no append), and the
    post-await commit appends unconditionally, so a result arriving after
    a stop or reset is still appended to the then-current state. -/
theorem inflight_result_still_appended
    (env : TurnEnv) (sched : ImageSched) (s : ConversationState)
    (hstopped : s.isRunning = false) :
    runConversationTurn env sched s = (s, sched, none) ∧
    (turnCommit env sched s).1.messages =
      (if (s.messages ++ [(turnCommit env sched s).2.2]).length > 100 then
        (s.messages ++ [(turnCommit env sched s).2.2]).drop
          ((s.messages ++ [(turnCommit env sched s).2.2]).length - 100)
       else s.messages ++ [(turnCommit env sched s).2.2]) ∧
    (turnCommit env sched s).1.isRunning = false := by
  refine ⟨?_, ?_, ?_⟩
  · simp [runConversationTurn, turnCallIssued, hstopped]
  · simp [turnCommit]
  · simp [turnCommit, hstopped]

theorem inflight_result_still_appended_witness :
    (stopConversation preStopState true).1.isRunning = false ∧
    runConversationTurn inflightEnv idleSched (stopConversation preStopState true).1 =
      ((stopConversation preStopState true).1, idleSched, none) ∧
    (turnCommit inflightEnv idleSched (stopConversation preStopState true).1).1.isRunning
      = false :=
  ⟨rfl,
    (inflight_result_still_appended inflightEnv idleSched
      (stopConversation preStopState true).1 rfl).1,
    (inflight_result_still_appended inflightEnv idleSched
      (stopConversation preStopState true).1 rfl).2.2⟩

/-- Claim C9: with an empty message list neither sink produces an
    archive — saveLocalArchive yields no file and saveArchiveToGitHub no
    remote write — and every produced archive document records at least
    one message. -/
theorem empty_state_never_archived
    (reason : String) (s : ConversationState) (mem : AgentMemoryStore)
    (now : Nat) (token : Option String) :
    (s.messages = [] →
      saveLocalArchive reason s mem now = none ∧
      saveArchiveToGitHub token reason s mem now = none) ∧
    (∀ d, saveLocalArchive reason s mem now = some d →
      1 ≤ d.messageCount ∧ ∃ l, d.conversationField = some l ∧ 1 ≤ l.length) ∧
    (∀ d, saveArchiveToGitHub token reason s mem now = some d →
      1 ≤ d.messageCount ∧ ∃ l, d.messagesField = some l ∧ 1 ≤ l.length) := by
  refine ⟨?_, ?_, ?_⟩
  · intro h
    refine ⟨by simp [saveLocalArchive, h], ?_⟩
    cases token with
    | none => rfl
    | some t => by_cases ht : t = "" <;> simp [saveArchiveToGitHub, ht, h]
  · intro d hd
    by_cases h : s.messages.length = 0
    · simp only [saveLocalArchive, if_pos h] at hd
      exact absurd hd (by simp)
    · simp only [saveLocalArchive, if_neg h, Option.some.injEq] at hd
      subst hd
      exact ⟨show 1 ≤ s.messages.length by omega, s.messages, rfl, by omega⟩
  · intro d hd
    cases token with
    | none => exact absurd hd (by simp [saveArchiveToGitHub])
    | some t =>
      by_cases ht : t = ""
      · simp only [saveArchiveToGitHub, if_pos ht] at hd
        exact absurd hd (by simp)
      · by_cases h : s.messages.length = 0
        · simp only [saveArchiveToGitHub, if_neg ht, if_pos h] at hd
          exact absurd hd (by simp)
        · simp only [saveArchiveToGitHub, if_neg ht, if_neg h,
            Option.some.injEq] at hd
          subst hd
          exact ⟨show 1 ≤ s.messages.length by omega, s.messages, rfl, by omega⟩

def w9State : ConversationState := freshState 5

theorem empty_state_never_archived_witness :
    w9State.messages = [] ∧
    saveLocalArchive "hourly_snapshot" w9State emptyMemStore 6 = none ∧
    saveArchiveToGitHub (some "tok") "hourly_snapshot" w9State emptyMemStore 6
      = none :=
  ⟨rfl,
    ((empty_state_never_archived "hourly_snapshot" w9State emptyMemStore 6
      (some "tok")).1 rfl).1,
    ((empty_state_never_archived "hourly_snapshot" w9State emptyMemStore 6
      (some "tok")).1 rfl).2⟩

/-- Claim C10: every addMemory call leaves the target agent with at most
    50 memories, dropping the oldest entries from the front when the
    bound is exceeded, and leaves the other agent's slot unchanged. -/
theorem addMemory_bounded
    (st : AgentMemoryStore) (agent : AgentKey) (memory now : String) :
    (slotOf (addMemory st agent memory now) agent).memories.length ≤ 50 ∧
    ((slotOf st agent).memories.length + 1 > 50 →
      (slotOf (addMemory st agent memory now) agent).memories =
        ((slotOf st agent).memories ++
          [({ content := memory, timestamp := now } : AgentMemoryEntry)]).drop
          ((slotOf st agent).memories.length + 1 - 50)) ∧
    ((slotOf st agent).memories.length + 1 ≤ 50 →
      (slotOf (addMemory st agent memory now) agent).memories =
        (slotOf st agent).memories ++
          [({ content := memory, timestamp := now } : AgentMemoryEntry)]) ∧
    slotOf (addMemory st agent memory now) (otherKey agent) =
      slotOf st (otherKey agent) := by
  have key : ∀ (l : List AgentMemoryEntry) (e : AgentMemoryEntry),
      (if (l ++ [e]).length > 50 then
          (l ++ [e]).drop ((l ++ [e]).length - 50) else l ++ [e]).length ≤ 50 ∧
      (l.length + 1 > 50 →
        (if (l ++ [e]).length > 50 then
            (l ++ [e]).drop ((l ++ [e]).length - 50) else l ++ [e]) =
          (l ++ [e]).drop (l.length + 1 - 50)) ∧
      (l.length + 1 ≤ 50 →
        (if (l ++ [e]).length > 50 then
            (l ++ [e]).drop ((l ++ [e]).length - 50) else l ++ [e]) =
          l ++ [e]) := by
    intro l e
    have hlen : (l ++ [e]).length = l.length + 1 := by simp
    by_cases h : (l ++ [e]).length > 50
    · rw [if_pos h]
      refine ⟨?_, fun _ => by rw [hlen], fun hle => absurd h (by omega)⟩
      rw [List.length_drop]
      omega
    · rw [if_neg h]
      exact ⟨by omega, fun hgt => absurd hgt (by omega), fun _ => rfl⟩
  cases agent <;>
    simp only [addMemory, slotOf, otherKey] <;>
    exact ⟨(key _ _).1, (key _ _).2.1, (key _ _).2.2, trivial⟩

def w10Store : AgentMemoryStore :=
  { claudeAlpha := { memories := [{ content := "a first thought", timestamp := "t0" }],
                     lastActive := none },
    claudeOmega := { memories := [], lastActive := none } }

theorem addMemory_bounded_witness :
    (slotOf (addMemory w10Store AgentKey.claudeAlpha "the truth" "t1")
        AgentKey.claudeAlpha).memories.length ≤ 50 ∧
    (slotOf w10Store AgentKey.claudeAlpha).memories.length + 1 ≤ 50 ∧
    (slotOf (addMemory w10Store AgentKey.claudeAlpha "the truth" "t1")
        AgentKey.claudeAlpha).memories =
      (slotOf w10Store AgentKey.claudeAlpha).memories ++
        [{ content := "the truth", timestamp := "t1" }] ∧
    slotOf (addMemory w10Store AgentKey.claudeAlpha "the truth" "t1")
        (otherKey AgentKey.claudeAlpha) =
      slotOf w10Store (otherKey AgentKey.claudeAlpha) :=
  ⟨(addMemory_bounded w10Store AgentKey.claudeAlpha "the truth" "t1").1,
    by decide,
    (addMemory_bounded w10Store AgentKey.claudeAlpha "the truth" "t1").2.2.1
      (by decide),
    (addMemory_bounded w10Store AgentKey.claudeAlpha "the truth" "t1").2.2.2⟩
